import Mathlib

/-!
Shallow embedding of the content-indexing / retrieval / translation core of the
textbook backend, together with proofs checking the natural-language
specification against it.  Text is modelled as `List Char`; Python `str.split()`
and friends are reimplemented with the same semantics on that representation.
-/

set_option autoImplicit false

namespace Textbook

/-- Text is modelled as a list of characters (Python `str`, code-point wise). -/
abbrev Text := List Char

/-- Coerce a Lean string literal to the `Text` model. -/
def txt (s : String) : Text := s.data

/-- Python whitespace class used by `str.split()` / `str.strip()` / `\s`
(ASCII part; the sources only ever meet ASCII whitespace). -/
def isPySpace (c : Char) : Bool :=
  c == ' ' || c == '\t' || c == '\n' || c == '\r' || c == '\x0b' || c == '\x0c'

/-- Python `str.split()` with no separator: split on whitespace runs,
dropping empty pieces. -/
def pywords (t : Text) : List Text :=
  (List.splitOnP isPySpace t).filter (fun w => w ≠ [])

/-- Python `" ".join(ws)`. -/
def joinSpace (ws : List Text) : Text :=
  List.intercalate [' '] ws

/-- Python `s.split('\n')` (keeps empty pieces). -/
def splitNl (t : Text) : List Text :=
  List.splitOn '\n' t

/-- Python `'\n'.join(lines)`. -/
def joinNl (ls : List Text) : Text :=
  List.intercalate ['\n'] ls

/-- Python `str.strip()` (ASCII whitespace). -/
def charStrip (t : Text) : Text :=
  ((t.dropWhile isPySpace).reverse.dropWhile isPySpace).reverse

/-- Prefix test: does `t` start with `p`? -/
def startsWithT : Text → Text → Bool
  | _, [] => true
  | [], _ :: _ => false
  | c :: cs, d :: ds => c == d && startsWithT cs ds

/-- Python `needle in hay` (substring containment). -/
def containsSub (hay needle : Text) : Bool :=
  match hay with
  | [] => startsWithT [] needle
  | c :: rest => startsWithT (c :: rest) needle || containsSub rest needle

/-- Recursion core of `replaceAll`; the counter only bounds the recursion
depth (each step consumes at least one character, so a counter starting at
the text's length is never exhausted). -/
def replaceAllGo (needle repl : Text) : Nat → Text → Text
  | _, [] => []
  | 0, t => t
  | n + 1, c :: rest =>
    if needle ≠ [] ∧ startsWithT (c :: rest) needle = true then
      repl ++ replaceAllGo needle repl n ((c :: rest).drop needle.length)
    else
      c :: replaceAllGo needle repl n rest

/-- Python `hay.replace(needle, repl)`: replace every non-overlapping
occurrence, left to right, scanning resumes after each replacement.
An empty needle is treated as never matching (the sources never pass one). -/
def replaceAll (needle repl t : Text) : Text :=
  replaceAllGo needle repl t.length t

/-- Decimal digits of a natural number (Python `f"{n}"`). -/
def natText (n : Nat) : Text := (Nat.repr n).data

/-! ## `IndexingService._split_text` (word-window splitting) -/

/-- Default chunk size of the indexing service (`self.chunk_size = 500`). -/
def chunkSize : Nat := 500

/-- Default overlap of the indexing service (`self.chunk_overlap = 50`). -/
def chunkOverlap : Nat := 50

/-- The `while start < len(words)` loop body of `_split_text`, with explicit
fuel: `none` means the loop has not finished within `fuel` iterations.
Mirrors: `end = min(start+chunk_size, len(words)); chunks.append(" ".join(
words[start:end])); start = end - overlap; if start >= len(words): break`.
(The subtraction matches Python because in every reachable state
`end ≥ chunk_size > overlap`.) -/
def splitTextLoop (ws : List Text) (size overlap : Nat) :
    Nat → Nat → List Text → Option (List Text)
  | 0, _, _ => none
  | fuel + 1, start, acc =>
    if start < ws.length then
      let e := min (start + size) ws.length
      let acc2 := acc ++ [joinSpace ((ws.drop start).take (e - start))]
      let start2 := e - overlap
      if start2 ≥ ws.length then some acc2
      else splitTextLoop ws size overlap fuel start2 acc2
    else some acc

/-- Model of `IndexingService._split_text(text, chunk_size, overlap)`:
`words = text.split(); if len(words) <= chunk_size: return [text]` else run
the sliding-window loop. -/
def splitText (fuel : Nat) (text : Text) (size overlap : Nat) :
    Option (List Text) :=
  let ws := pywords text
  if ws.length ≤ size then some [text]
  else splitTextLoop ws size overlap fuel 0 []

/-! ## `IndexingService._clean_content` -/

/-- Does a line match `^import\s+.*$` (starts with `import` followed by at
least one whitespace character)? -/
def isImportLine (line : Text) : Bool :=
  startsWithT line (txt ("import")) &&
    (match line.drop 6 with
     | c :: _ => isPySpace c
     | [] => false)

/-- Model of `re.sub(r'^import\s+.*$', '', content, flags=re.MULTILINE)`:
matched lines become empty, their newlines stay. -/
def removeImportLines (content : Text) : Text :=
  joinNl ((splitNl content).map (fun line => if isImportLine line then [] else line))

/-- Drop characters up to and including the first `'>'`; `none` if there is
no `'>'`. -/
def dropThroughGt : Text → Option Text
  | [] => none
  | c :: rest => if c == '>' then some rest else dropThroughGt rest

/-- Recursion core of `removeTag` (counter as in `replaceAllGo`). -/
def removeTagGo (tag : Text) : Nat → Text → Text
  | _, [] => []
  | 0, t => t
  | n + 1, c :: rest =>
    if startsWithT (c :: rest) tag = true then
      match dropThroughGt ((c :: rest).drop tag.length) with
      | some after => removeTagGo tag n after
      | none => c :: removeTagGo tag n rest
    else c :: removeTagGo tag n rest

/-- Model of `re.sub(tag ++ r'[^>]*/?>', '', content)` for a literal opening-tag
prefix `tag` (e.g. `<ChapterQuiz`): remove from each occurrence of `tag`
through the next `'>'`; an occurrence with no later `'>'` does not match. -/
def removeTag (tag t : Text) : Text :=
  removeTagGo tag t.length t

/-- Index of the earliest occurrence of `needle`, with the remainder after it;
`none` if it does not occur. -/
def dropThroughSeq (close : Text) : Text → Option Text
  | [] => none
  | c :: rest =>
    if startsWithT (c :: rest) close = true then some ((c :: rest).drop close.length)
    else dropThroughSeq close rest

/-- Recursion core of `removeComments` (counter as in `replaceAllGo`). -/
def removeCommentsGo : Nat → Text → Text
  | _, [] => []
  | 0, t => t
  | n + 1, c :: rest =>
    if startsWithT (c :: rest) (txt ("<!--")) = true then
      match dropThroughSeq (txt ("-->")) ((c :: rest).drop 4) with
      | some after => removeCommentsGo n after
      | none => c :: removeCommentsGo n rest
    else c :: removeCommentsGo n rest

/-- Model of `re.sub(r'<!--[\s\S]*?-->', '', content)`: remove each HTML comment from
`<!--` through the earliest `-->`; an unclosed `<!--` does not match. -/
def removeComments (t : Text) : Text :=
  removeCommentsGo t.length t

/-- Recursion core of `collapseNewlines` (counter as in `replaceAllGo`). -/
def collapseNewlinesGo : Nat → Text → Text
  | _, [] => []
  | 0, t => t
  | n + 1, c :: rest =>
    if c == '\n' then
      let run := 1 + (rest.takeWhile (fun d => d == '\n')).length
      (if run ≥ 3 then ['\n', '\n'] else List.replicate run '\n') ++
        collapseNewlinesGo n (rest.dropWhile (fun d => d == '\n'))
    else c :: collapseNewlinesGo n rest

/-- Model of `re.sub(r'\n{3,}', '\n\n', content)`: collapse runs of three or more
newlines to exactly two. -/
def collapseNewlines (t : Text) : Text :=
  collapseNewlinesGo t.length t

/-- Model of `IndexingService._clean_content`: strip import lines, component tags and
HTML comments, collapse blank-line runs, trim. -/
def cleanContent (content : Text) : Text :=
  charStrip (collapseNewlines (removeComments
    (replaceAll (txt ("</ChatSelection>")) []
      (removeTag (txt ("<ChatSelection"))
        (removeTag (txt ("<ChapterQuiz"))
          (removeImportLines content))))))

/-! ## `IndexingService._split_by_sections` and `_chunk_content` -/

/-- A markdown section: heading label and accumulated body text. -/
structure MdSection where
  heading : Text
  text : Text
deriving DecidableEq, Repr

/-- Model of `re.match(r'^(#{2,3})\s+(.+)$', line)`: a line of exactly two or three
leading `#` followed by at least one whitespace character and at least one
further character; the heading label is `group(2).strip()`, which equals the
stripped remainder after the `#` run. -/
def parseHeading (line : Text) : Option Text :=
  let hashes := line.takeWhile (fun c => c == '#')
  let rest := line.dropWhile (fun c => c == '#')
  if hashes.length = 2 ∨ hashes.length = 3 then
    match rest with
    | c :: _ :: _ => if isPySpace c then some (charStrip rest) else none
    | _ => none
  else none

/-- The line loop of `_split_by_sections`: accumulate body lines (plus a
newline each) into the current section; a heading line flushes the current
section (if its stripped text is nonempty) and starts a new one. -/
def splitBySectionsGo : List Text → MdSection → List MdSection → List MdSection
  | [], cur, acc => if charStrip cur.text ≠ [] then acc ++ [cur] else acc
  | line :: rest, cur, acc =>
    match parseHeading line with
    | some h =>
      splitBySectionsGo rest ⟨h, []⟩
        (if charStrip cur.text ≠ [] then acc ++ [cur] else acc)
    | none => splitBySectionsGo rest ⟨cur.heading, cur.text ++ line ++ ['\n']⟩ acc

/-- Model of `IndexingService._split_by_sections(content)`. -/
def splitBySections (content : Text) : List MdSection :=
  splitBySectionsGo (splitNl content) ⟨[], []⟩ []

/-- A chunk as built by `_chunk_content` (the dictionary's six fields). -/
structure Chunk where
  content : Text
  heading : Text
  chapterId : Text
  docId : Text
  chunkIndex : Nat
  title : Text
deriving DecidableEq, Repr

/-- The inner `for chunk_text in section_chunks` loop of `_chunk_content`:
drop pieces whose stripped length is below 50 characters, give the kept
pieces consecutive `chunk_index` values. -/
def chunkPieces (cid title heading : Text) :
    List Text → Nat → List Chunk → List Chunk × Nat
  | [], idx, acc => (acc, idx)
  | p :: rest, idx, acc =>
    if (charStrip p).length < 50 then chunkPieces cid title heading rest idx acc
    else
      chunkPieces cid title heading rest (idx + 1)
        (acc ++ [⟨p, heading, cid, cid ++ '-' :: natText idx, idx, title⟩])

/-- The outer section loop of `_chunk_content`: skip sections with blank
text, split the rest into word windows, number kept chunks globally.
`none` propagates a non-terminating `_split_text` call. -/
def chunkSectionsGo (fuel : Nat) (cid title : Text) :
    List MdSection → Nat → List Chunk → Option (List Chunk)
  | [], _, acc => some acc
  | s :: rest, idx, acc =>
    if charStrip s.text = [] then chunkSectionsGo fuel cid title rest idx acc
    else
      match splitText fuel s.text chunkSize chunkOverlap with
      | none => none
      | some pieces =>
        let r := chunkPieces cid title s.heading pieces idx acc
        chunkSectionsGo fuel cid title rest r.2 r.1

/-- Model of `IndexingService._chunk_content(content, title, chapter_id)`. -/
def chunkContent (fuel : Nat) (content title cid : Text) : Option (List Chunk) :=
  chunkSectionsGo fuel cid title (splitBySections (cleanContent content)) 0 []

/-! ## `IndexingService.index_chapter` and `_store_chunks` -/

/-- Embeddings are opaque tokens (their numeric content never matters to the
indexing logic). -/
abbrev Emb := Nat

/-- A `VectorChunk` database row as created by `_store_chunks`. -/
structure StoredChunk where
  docId : Text
  chapterId : Text
  heading : Text
  chunkIndex : Nat
  content : Text
  tokenCount : Nat
deriving DecidableEq, Repr

/-- A call made against the vector store gateway during indexing. -/
inductive VecOp where
  | deleteByChapter (chapterId : Text)
  | upsert (docId : Text) (emb : Emb)
deriving DecidableEq, Repr

/-- The state the indexer reads and writes: the chapter's chunk rows in the
relational store, and a grow-only log of vector-store calls. -/
structure IndexState where
  chunkRows : List StoredChunk
  vecOps : List VecOp
deriving DecidableEq, Repr

/-- The `status` field of `index_chapter`'s result dictionary. -/
inductive IndexStatus where
  | success
  | skipped
  | empty
  | error
deriving DecidableEq, Repr

/-- Outcome of one index pass (`status` plus `chunk_count`; passes whose
result dictionary has no `chunk_count` key report 0). -/
structure IndexOutcome where
  status : IndexStatus
  chunkCount : Nat
deriving DecidableEq, Repr

/-- Model of `_calculate_hash` (MD5) modelled as an injective digest: two digests are
equal exactly when the hashed texts are equal. -/
def mdHash (content : Text) : Text := content

/-- Recursion core of `genEmbBatches` (counter as in `replaceAllGo`; each
batch consumes at least one text). -/
def genEmbBatchesGo (embed : List Text → List Emb) :
    Nat → List Text → List Emb × List (List Text)
  | _, [] => ([], [])
  | 0, _ => ([], [])
  | n + 1, t :: ts =>
    let batch := (t :: ts).take 20
    let r := genEmbBatchesGo embed n ((t :: ts).drop 20)
    (embed batch ++ r.1, batch :: r.2)

/-- Model of `_generate_embeddings_batch`: slice the texts into batches of at most 20
(`self.max_batch_size`), call the provider once per batch, concatenate the
results.  Also returns the list of batches sent to the provider. -/
def genEmbBatches (embed : List Text → List Emb) (texts : List Text) :
    List Emb × List (List Text) :=
  genEmbBatchesGo embed texts.length texts

/-- The rows `_store_chunks` creates: one `VectorChunk` per chunk, with
`token_count = len(content.split())`. -/
def storeRows (chunks : List Chunk) : List StoredChunk :=
  chunks.map (fun c =>
    ⟨c.docId, c.chapterId, c.heading, c.chunkIndex, c.content, (pywords c.content).length⟩)

/-- Model of `IndexingService.index_chapter(chapter_id, content, title, force_reindex)`
acting on an `IndexState` whose `chunkRows` are the chapter's existing rows.
Returns the outcome, the new state, and the batches sent to the embedding
provider; `none` models a pass that never returns (non-terminating
`_split_text`).  The skip check compares `mdHash(content)` with the digest of
the concatenation (`"".join`) of the existing rows' contents. -/
def indexChapter (fuel : Nat) (embed : List Text → List Emb)
    (chapterId content title : Text) (force : Bool) (st : IndexState) :
    Option (IndexOutcome × IndexState × List (List Text)) :=
  if force = false ∧ st.chunkRows ≠ [] ∧
      mdHash ((st.chunkRows.map StoredChunk.content).flatten) = mdHash content then
    some (⟨.skipped, st.chunkRows.length⟩, st, [])
  else
    let st1 : IndexState := ⟨[], st.vecOps ++ [VecOp.deleteByChapter chapterId]⟩
    match chunkContent fuel content title chapterId with
    | none => none
    | some chunks =>
      if chunks = [] then some (⟨.empty, 0⟩, st1, [])
      else
        let r := genEmbBatches embed (chunks.map Chunk.content)
        if r.1.length ≠ chunks.length then some (⟨.error, 0⟩, st1, r.2)
        else
          some (⟨.success, chunks.length⟩,
            ⟨storeRows chunks,
             st1.vecOps ++ (chunks.zip r.1).map (fun p => VecOp.upsert p.1.docId p.2)⟩,
            r.2)

/-! ## `QdrantVectorStore` (vector store gateway) -/

/-- A search-result payload (the metadata fields the engine reads). -/
structure Payload where
  content : Text
  chapterId : Text
  heading : Text
deriving DecidableEq, Repr

/-- A point returned by the underlying store's `query_points`. -/
structure QPoint where
  pid : Nat
  score : Int
  payload : Payload
deriving DecidableEq, Repr

/-- An exact-match metadata filter (conjunction of field/value pairs). -/
abbrev FilterCond := List (Text × Text)

/-- The underlying Qdrant client: each operation either answers or raises. -/
structure VecBackend where
  queryPoints : List Emb → Nat → Option FilterCond → Option Int → Except Unit (List QPoint)
  upsertPoints : List (Nat × Emb × Payload) → Except Unit Unit
  deletePoints : FilterCond → Except Unit Unit

/-- The gateway after initialization: `client = none` models a store that was
unreachable at startup (`_ensure_initialized` caught the failure and left
`_client = None`). -/
structure QdrantStore where
  client : Option VecBackend

/-- Model of `QdrantVectorStore.search`: unavailable store or a raising call degrades
to `[]`; otherwise the returned points are formatted as result records. -/
def storeSearch (s : QdrantStore) (qv : List Emb) (limit : Nat)
    (filt : Option FilterCond) (thr : Option Int) : List QPoint :=
  match s.client with
  | none => []
  | some b =>
    match b.queryPoints qv limit filt thr with
    | .error _ => []
    | .ok pts => pts

/-- Model of `QdrantVectorStore.upsert_vectors`: unavailable store or a raising call
degrades to `false`; otherwise `true`. -/
def storeUpsert (s : QdrantStore) (vectors : List Emb) (payloads : List Payload)
    (ids : List Nat) : Bool :=
  match s.client with
  | none => false
  | some b =>
    match b.upsertPoints (ids.zip (vectors.zip payloads)) with
    | .error _ => false
    | .ok _ => true

/-- Model of `QdrantVectorStore.delete_by_filter`: unavailable store or a raising call
degrades to `false`; otherwise `true`. -/
def storeDelete (s : QdrantStore) (filt : FilterCond) : Bool :=
  match s.client with
  | none => false
  | some b =>
    match b.deletePoints filt with
    | .error _ => false
    | .ok _ => true

/-- The underlying store is unreachable at call time: every call raises. -/
def backendDown (b : VecBackend) : Prop :=
  (∀ qv l f t, b.queryPoints qv l f t = .error ()) ∧
  (∀ pts, b.upsertPoints pts = .error ()) ∧
  (∀ f, b.deletePoints f = .error ())

/-! ## `RAGService` context assembly -/

/-- The result loop of `RAGService._extract_context`: collect non-empty chunk
texts and deduplicated source labels.  Search results are modelled by their
payloads. -/
def extractContextGo : List Payload → List Text → List Text → List Text × List Text
  | [], cc, ss => (cc, ss)
  | p :: rest, cc, ss =>
    if p.content ≠ [] then
      extractContextGo rest (cc ++ [p.content])
        (let source := if p.heading ≠ [] then p.chapterId ++ txt (" - ") ++ p.heading
                       else p.chapterId
         if source ≠ [] ∧ source ∉ ss then ss ++ [source] else ss)
    else extractContextGo rest cc ss

/-- Model of `RAGService._extract_context(search_results)`. -/
def extractContext (results : List Payload) : List Text × List Text :=
  extractContextGo results [] []

/-- Steps 4 of `RAGService.query`: the context chunks handed to the
completion provider — extracted chunk texts, with
`"Selected text: " + selected_text` inserted at position 0 when a non-empty
selection is given in selection mode. -/
def buildContextChunks (mode : Text) (selectedText : Option Text)
    (results : List Payload) : List Text :=
  let cc := (extractContext results).1
  match selectedText with
  | some sel =>
    if sel ≠ [] ∧ mode = txt ("selection") then (txt ("Selected text: ") ++ sel) :: cc
    else cc
  | none => cc

/-! ## `TranslationService` -/

/-- Regex `\w` word characters (ASCII approximation: the Python pattern also
counts non-ASCII letters as word characters, which never matters for the
ASCII technical terms and fence language tags the sources use). -/
def isWordChar (c : Char) : Bool :=
  c.isAlpha || c.isDigit || c == '_'

/-- The placeholder token `<<<CODE_BLOCK_{i}>>>`. -/
def cbPlaceholder (i : Nat) : Text :=
  txt ("<<<CODE_BLOCK_") ++ natText i ++ txt (">>>")

/-- Helper for `fenceMatchLen`: after the opening backticks and language tag,
require a newline and then the earliest closing backticks. -/
def fenceTail (l : Text) : Text → Option Nat
  | c :: body =>
    if c = '\n' then
      match dropThroughSeq (txt ("```")) body with
      | some after => some (l.length - after.length)
      | none => none
    else none
  | [] => none

/-- Length of the fenced-code-block match of `` ```(\w+)?\n(.*?)``` `` starting
at the head of `l`, if any: three backticks, an optional run of word
characters, a newline, then lazily up to and including the earliest closing
three backticks. -/
def fenceMatchLen (l : Text) : Option Nat :=
  if startsWithT l (txt ("```")) = true then
    fenceTail l ((l.drop 3).drop ((l.drop 3).takeWhile isWordChar).length)
  else none

/-- Recursion core of `extractFences` (counter as in `replaceAllGo`; a fence
match always has positive length, so the counter is never exhausted). -/
def extractFencesGo : Nat → Text → Nat → Text × List Text
  | _, [], _ => ([], [])
  | 0, t, _ => (t, [])
  | n + 1, c :: rest, i =>
    match fenceMatchLen (c :: rest) with
    | some m =>
      let r := extractFencesGo n ((c :: rest).drop m) (i + 1)
      (cbPlaceholder i ++ r.1, (c :: rest).take m :: r.2)
    | none =>
      let r := extractFencesGo n rest i
      (c :: r.1, r.2)

/-- Scanner behind `_preserve_code_blocks`: walk the content left to right;
each non-overlapping fence match (numbered from `i`) is replaced by its
placeholder and recorded; scanning resumes after the match. -/
def extractFences (t : Text) (i : Nat) : Text × List Text :=
  extractFencesGo t.length t i

/-- Model of `TranslationService._preserve_code_blocks(content)`: the processed
content and the placeholder dictionary.  The dictionary entries are listed
in Python insertion order, which iterates matches in reverse
(`for i, match in enumerate(reversed(matches))`). -/
def preserveCodeBlocks (content : Text) : Text × List (Text × Text) :=
  let r := extractFences content 0
  (r.1, (((List.range r.2.length).zip r.2).map
    (fun p => (cbPlaceholder p.1, p.2))).reverse)

/-- Model of `TranslationService._restore_code_blocks(content, code_blocks)`:
`content.replace(placeholder, code_block)` for each dictionary entry in
order. -/
def restoreCodeBlocks (content : Text) (codeBlocks : List (Text × Text)) : Text :=
  codeBlocks.foldl (fun acc pb => replaceAll pb.1 pb.2 acc) content

/-- Model of `TranslationService.TECHNICAL_TERMS`, in dictionary insertion order. -/
def technicalTerms : List (Text × Text) :=
  [ (txt ("ROS"), txt ("ROS (آر او ایس)")),
    (txt ("ROS2"), txt ("ROS2 (آر او ایس ٹو)")),
    (txt ("Python"), txt ("Python (پائتھون)")),
    (txt ("API"), txt ("API (اے پی آئی)")),
    (txt ("SDK"), txt ("SDK (ایس ڈی کے)")),
    (txt ("CPU"), txt ("CPU (سی پی یو)")),
    (txt ("GPU"), txt ("GPU (جی پی یو)")),
    (txt ("SLAM"), txt ("SLAM (سلیم)")),
    (txt ("PID"), txt ("PID (پی آئی ڈی)")),
    (txt ("IMU"), txt ("IMU (آئی ایم یو)")),
    (txt ("LiDAR"), txt ("LiDAR (لائیڈار)")),
    (txt ("RGB"), txt ("RGB (آر جی بی)")),
    (txt ("TCP/IP"), txt ("TCP/IP (ٹی سی پی/آئی پی)")),
    (txt ("HTTP"), txt ("HTTP (ایچ ٹی ٹی پی)")),
    (txt ("JSON"), txt ("JSON (جے سون)")),
    (txt ("XML"), txt ("XML (ایکس ایم ایل)")),
    (txt ("YAML"), txt ("YAML (یامل)")),
    (txt ("Git"), txt ("Git (گٹ)")),
    (txt ("Docker"), txt ("Docker (ڈوکر)")),
    (txt ("Kubernetes"), txt ("Kubernetes (کوبرنیٹس)")),
    (txt ("AI"), txt ("AI (مصنوعی ذہانت)")),
    (txt ("ML"), txt ("ML (مشین لرننگ)")),
    (txt ("DL"), txt ("DL (ڈیپ لرننگ)")),
    (txt ("RL"), txt ("RL (ریانفورسمنٹ لرننگ)")),
    (txt ("CNN"), txt ("CNN (سی این این)")),
    (txt ("RNN"), txt ("RNN (آر این این)")),
    (txt ("LSTM"), txt ("LSTM (ایل ایس ٹی ایم)")),
    (txt ("Transformer"), txt ("Transformer (ٹرانسفارمر)")),
    (txt ("OpenAI"), txt ("OpenAI (اوپن اے آئی)")),
    (txt ("Anthropic"), txt ("Anthropic (اینتھروپک)")),
    (txt ("Claude"), txt ("Claude (کلاڈ)")) ]

/-- Case-insensitive ASCII prefix test (regex `re.IGNORECASE`). -/
def ciStartsWith (t term : Text) : Bool :=
  startsWithT (t.map Char.toLower) (term.map Char.toLower)

/-- Does `\b{term}\b` (case-insensitive) match at the head of `t`, given the
character immediately before this position (`none` at the start of the
string)? -/
def termMatchesAt (term t : Text) (prev : Option Char) : Bool :=
  ciStartsWith t term &&
    (match prev with
     | none => true
     | some p => !isWordChar p) &&
    (match t.drop term.length with
     | [] => true
     | d :: _ => !isWordChar d)

/-- Recursion core of the whole-word substitution (counter as in
`replaceAllGo`). -/
def replaceWordCIGo (term repl : Text) : Nat → Option Char → Text → Text
  | _, _, [] => []
  | 0, _, t => t
  | n + 1, prev, c :: rest =>
    if term ≠ [] ∧ termMatchesAt term (c :: rest) prev = true then
      repl ++ replaceWordCIGo term repl n ((c :: rest).take term.length).getLast?
        ((c :: rest).drop term.length)
    else c :: replaceWordCIGo term repl n (some c) rest

/-- Model of `re.sub(rf'\b{re.escape(term)}\b', repl, content, flags=re.IGNORECASE)`:
scan left to right; at a match emit `repl` and resume after the matched text
(whose last character supplies the boundary context for the next position). -/
def replaceWordCI (term repl t : Text) : Text :=
  replaceWordCIGo term repl t.length none t

/-- Model of `TranslationService._apply_technical_terms(content)`: apply every term
substitution in dictionary order. -/
def applyTechnicalTerms (content : Text) : Text :=
  technicalTerms.foldl (fun acc p => replaceWordCI p.1 p.2 acc) content

/-- Model of `TranslationService._placeholder_translation(content)`: prefix each
non-blank line with an Urdu marker (used when no provider key is set). -/
def placeholderTranslation (content : Text) : Text :=
  joinNl ((splitNl content).map
    (fun line => if charStrip line ≠ [] then txt ("[اردو] ") ++ line else line))

/-! ## Translation cache (`TranslationCache` model + caching methods) -/

/-- Model of `TranslationService.CACHE_DURATION_DAYS`.  Time is modelled in days. -/
def cacheDurationDays : Nat := 30

/-- A `translation_cache` row. -/
structure CacheEntry where
  chapterId : Text
  contentHash : Text
  urduContent : Text
  expiresAt : Nat
deriving DecidableEq, Repr

/-- Model of `TranslationCache.is_expired`: `datetime.now() > expires_at`. -/
def isExpired (e : CacheEntry) (now : Nat) : Bool :=
  decide (e.expiresAt < now)

/-- Model of `_compute_content_hash` (SHA-256) modelled as an injective digest. -/
def shaHash (content : Text) : Text := content

/-- Row lookup for `(chapter_id, content_hash)` (`scalar_one_or_none`:
the first matching row). -/
def findCacheEntry (cache : List CacheEntry) (cid hash : Text) : Option CacheEntry :=
  cache.find? (fun e => decide (e.chapterId = cid) && decide (e.contentHash = hash))

/-- Model of `TranslationService.get_cached_translation(chapter_id, content_hash)`:
return a non-expired entry's text; delete an expired entry and miss. -/
def getCachedTranslation (cache : List CacheEntry) (cid hash : Text) (now : Nat) :
    Option Text × List CacheEntry :=
  match findCacheEntry cache cid hash with
  | some e =>
    if isExpired e now then (none, cache.erase e)
    else (some e.urduContent, cache)
  | none => (none, cache)

/-- Model of `TranslationService.cache_translation(chapter_id, content_hash, urdu)`:
delete every row for the pair, then insert a fresh row expiring
`CACHE_DURATION_DAYS` from now. -/
def cacheTranslation (cache : List CacheEntry) (cid hash urdu : Text) (now : Nat) :
    List CacheEntry :=
  cache.filter (fun e => !(decide (e.chapterId = cid) && decide (e.contentHash = hash)))
    ++ [⟨cid, hash, urdu, now + cacheDurationDays⟩]

/-- Result of `translate_to_urdu`: output text, cache-hit flag, new cache
state, and the number of `_translate_with_llm` invocations made. -/
structure TransResult where
  output : Text
  cacheHit : Bool
  cache : List CacheEntry
  providerCalls : Nat
deriving DecidableEq, Repr

/-- The text-production pipeline of `translate_to_urdu` on a cache miss:
placeholder-protect code blocks when `preserve_formatting`, run the provider,
restore the blocks, apply technical-term transliteration. -/
def translPipeline (provider : Text → Text) (content : Text) (pf : Bool) : Text :=
  let pc := if pf then preserveCodeBlocks content else (content, [])
  let translated := provider pc.1
  let restored := if pf ∧ pc.2 ≠ [] then restoreCodeBlocks translated pc.2 else translated
  applyTechnicalTerms restored

/-- The non-cached tail of `translate_to_urdu`: run the pipeline and store
the result when a chapter id was given. -/
def translateCore (provider : Text → Text) (content : Text) (cidOpt : Option Text)
    (pf : Bool) (cache : List CacheEntry) (hash : Text) (now : Nat) : TransResult :=
  match cidOpt with
  | some cid =>
    ⟨translPipeline provider content pf, false,
     cacheTranslation cache cid hash (translPipeline provider content pf) now, 1⟩
  | none => ⟨translPipeline provider content pf, false, cache, 1⟩

/-- Model of `TranslationService.translate_to_urdu(content, chapter_id,
preserve_formatting)` with the provider call abstracted as a function.  A
cache hit returns immediately with no provider invocation. -/
def translateToUrdu (provider : Text → Text) (now : Nat) (content : Text)
    (cidOpt : Option Text) (pf : Bool) (cache : List CacheEntry) : TransResult :=
  let hash := shaHash content
  match cidOpt with
  | some cid =>
    match getCachedTranslation cache cid hash now with
    | (some cached, cache2) => ⟨cached, true, cache2, 0⟩
    | (none, cache2) => translateCore provider content (some cid) pf cache2 hash now
  | none => translateCore provider content none pf cache hash now

/-! ## Provider selection and fallback (`LLMProvider`, callers) -/

/-- Which completion/embedding backend a call went to. -/
inductive ProviderTag where
  | gemini
  | openai
  | anthropic
deriving DecidableEq, Repr

/-- Which provider API keys are configured. -/
structure ApiKeys where
  gemini : Bool
  openai : Bool
  anthropic : Bool
deriving DecidableEq, Repr

/-- Model of `TranslationService._translate_with_llm(content)`: pick the first
configured backend in the fixed order Gemini, OpenAI, Anthropic; a raising
call is caught and degraded to the placeholder translation; with no keys the
placeholder translation is returned directly.  The second component records
which backends were actually called. -/
def translateWithLlm (keys : ApiKeys) (gem opa anth : Text → Except Unit Text)
    (content : Text) : Text × List ProviderTag :=
  if keys.gemini then
    match gem content with
    | .ok r => (r, [ProviderTag.gemini])
    | .error _ => (placeholderTranslation content, [ProviderTag.gemini])
  else if keys.openai then
    match opa content with
    | .ok r => (r, [ProviderTag.openai])
    | .error _ => (placeholderTranslation content, [ProviderTag.openai])
  else if keys.anthropic then
    match anth content with
    | .ok r => (r, [ProviderTag.anthropic])
    | .error _ => (placeholderTranslation content, [ProviderTag.anthropic])
  else (placeholderTranslation content, [])

/-- Model of `LLMProvider._get_completion_client` in `auto` mode: priority
Gemini > Anthropic > OpenAI among the configured backends. -/
def getCompletionClient (keys : ApiKeys) : Option ProviderTag :=
  if keys.gemini then some ProviderTag.gemini
  else if keys.anthropic then some ProviderTag.anthropic
  else if keys.openai then some ProviderTag.openai
  else none

/-- The degraded answer `RAGService._generate_answer` returns when the
completion call raises or answers empty. -/
def degradedAnswer : Text :=
  txt ("I apologize, but I\x27m unable to generate a response at this time. Please try again later.")

/-- Model of `RAGService._generate_answer` composed with
`LLMProvider.complete_with_context`: one call to the selected backend; a
raising call, an empty answer, or no available backend yields the degraded
message.  The second component records which backends were called. -/
def generateAnswer (keys : ApiKeys) (clients : ProviderTag → Text → Except Unit Text)
    (query : Text) : Text × List ProviderTag :=
  match getCompletionClient keys with
  | none => (degradedAnswer, [])
  | some tag =>
    match clients tag query with
    | .ok a => if a ≠ [] then (a, [tag]) else (degradedAnswer, [tag])
    | .error _ => (degradedAnswer, [tag])

/-! ## Concrete fixtures -/

/-- A 1200-word single-section document body (the spec's `"week-1-intro"`
example scenario). -/
def week1Body : Text := joinSpace (List.replicate 1200 (txt ("w")))

/-- A 501-word section text: one word past the chunk-size threshold. -/
def body501 : Text := joinSpace (List.replicate 501 (txt ("w")))

/-- A single-line body of more than 50 characters that the content cleaner
leaves unchanged (no headings, imports, tags or comments). -/
def c60 : Text := txt ("This paragraph has well over fifty characters of text in it, truly.")

/-- Fixture title. -/
def tTitle : Text := txt ("T")

/-- Fixture chapter id. -/
def chId : Text := txt ("ch")

/-- The single chunk `_chunk_content` produces from `c60` (note the body text
carries a trailing newline added by the section splitter). -/
def chunk60 : Chunk := ⟨c60 ++ ['\n'], [], chId, chId ++ txt ("-0"), 0, tTitle⟩

/-- An embedding provider answering one embedding per input text. -/
def embedOne : List Text → List Emb := fun ts => ts.map (fun _ => 0)

/-- An embedding provider whose batched call returns an empty list
(total failure). -/
def embedNone : List Text → List Emb := fun _ => []

/-- Outcome of indexing `c60` twice in a row with `force = false` from an
empty state: the statuses of both passes and the number of embedding-provider
batch calls the second pass made. -/
def indexTwiceOutcome : Option (IndexStatus × IndexStatus × Nat) :=
  match indexChapter 1 embedOne chId c60 tTitle false ⟨[], []⟩ with
  | some (r1, st1, _) =>
    match indexChapter 1 embedOne chId c60 tTitle false st1 with
    | some (r2, _, batches2) => some (r1.status, r2.status, batches2.length)
    | none => none
  | none => none

/-- The example input of C4: a document that is one fenced code block whose
body is the word `Python`. -/
def c4content : Text := txt ("```\nPython\n```")

/-- A selection text containing the chunk text `abc` as a substring. -/
def selText : Text := txt ("here is abc gone")

/-- A retrieved chunk whose text is fully contained in `selText`. -/
def resAbc : Payload := ⟨txt ("abc"), txt ("ch1"), []⟩

/-- A completion backend whose call raises. -/
def gemFail : Text → Except Unit Text := fun _ => Except.error ()

/-- A completion backend that answers. -/
def opaEcho : Text → Except Unit Text := fun t => Except.ok (txt ("ok ") ++ t)

/-- Gemini and OpenAI keys configured, Anthropic absent. -/
def keysGemOpenai : ApiKeys := ⟨true, true, false⟩

/-- A gateway whose underlying store was unreachable at startup. -/
def downStore : QdrantStore := ⟨none⟩

/-- The identity provider (used for cache fixtures). -/
def idProvider : Text → Text := fun t => t

/-- The cache entry the first fixture translation stores. -/
def cEntry : CacheEntry := ⟨txt ("c"), txt ("Hi"), txt ("Hi"), 30⟩

/-! ## Shared lemmas -/

theorem splitTextLoop_never_ends (ws : List Text) (size overlap : Nat)
    (hO : 0 < overlap) :
    ∀ fuel start acc, start < ws.length →
      splitTextLoop ws size overlap fuel start acc = none := by
  intro fuel
  induction fuel with
  | zero => intro start acc _; rfl
  | succ n ih =>
    intro start acc hstart
    have hmin : min (start + size) ws.length ≤ ws.length := Nat.min_le_right _ _
    have hs2 : min (start + size) ws.length - overlap < ws.length := by omega
    simp only [splitTextLoop]
    rw [if_pos hstart,
      if_neg (by omega : ¬ (min (start + size) ws.length - overlap ≥ ws.length))]
    exact ih _ _ hs2

set_option maxRecDepth 10000 in
theorem week1Body_word_count : (pywords week1Body).length = 1200 := by decide

set_option maxRecDepth 10000 in
theorem body501_word_count : (pywords body501).length = 501 := by decide

/-! ## Claim theorems -/

/-- C1: the claim says a 1200-word single-section body split with chunk size
500 and overlap 50 yields exactly 3 windows starting at words 0, 450, 900.
In fact `_split_text` never returns on it: after the window `[900:1200]` the
loop retakes the final 50-word window `[1150:1200]` forever (`start = end -
overlap` can never reach `len(words)`), so no fuel bound suffices — the code
diverges instead of producing the claimed 3 chunks. -/
theorem splitText_week1_1200_words_never_returns :
    ∀ fuel, splitText fuel week1Body chunkSize chunkOverlap = none := by
  intro fuel
  have hlen : (pywords week1Body).length = 1200 := week1Body_word_count
  have hgt : ¬ ((pywords week1Body).length ≤ chunkSize) := by
    rw [hlen]; decide
  simp only [splitText]
  rw [if_neg hgt]
  exact splitTextLoop_never_ends _ _ _ (by decide) fuel 0 [] (by rw [hlen]; decide)

/-- C2: the claim says word-window splitting terminates for every text and
every `0 < overlap < chunk_size`.  In fact, whenever the section has more
words than `chunk_size` the loop never terminates: `start = end - overlap`
always stays below `len(words)`, so neither the loop condition nor the break
can fire.  No fuel bound makes `_split_text` return. -/
theorem splitText_oversized_section_never_returns
    (text : Text) (size overlap : Nat) (hO : 0 < overlap) (hOC : overlap < size)
    (hN : size < (pywords text).length) :
    ∀ fuel, splitText fuel text size overlap = none := by
  intro fuel
  simp only [splitText]
  rw [if_neg (by omega)]
  exact splitTextLoop_never_ends _ _ _ hO fuel 0 [] (by omega)

/-- Witness for C2 at a concrete input: a 501-word section with the default
chunk size 500 and overlap 50. -/
theorem splitText_oversized_section_witness :
    0 < chunkOverlap ∧ chunkOverlap < chunkSize ∧
    chunkSize < (pywords body501).length ∧
    splitText 9 body501 chunkSize chunkOverlap = none :=
  ⟨by decide, by decide, by rw [body501_word_count]; decide,
   splitText_oversized_section_never_returns body501 chunkSize chunkOverlap
     (by decide) (by decide) (by rw [body501_word_count]; decide) 9⟩

theorem chunkPieces_indices (cid title heading : Text) :
    ∀ (pieces : List Text) (idx : Nat) (acc : List Chunk),
      acc.map Chunk.chunkIndex = List.range idx →
      (chunkPieces cid title heading pieces idx acc).1.map Chunk.chunkIndex
        = List.range (chunkPieces cid title heading pieces idx acc).2 := by
  intro pieces
  induction pieces with
  | nil => intro idx acc h; simpa [chunkPieces] using h
  | cons p rest ih =>
    intro idx acc h
    by_cases hp : (charStrip p).length < 50
    · simp only [chunkPieces, if_pos hp]
      exact ih idx acc h
    · simp only [chunkPieces, if_neg hp]
      refine ih (idx + 1) _ ?_
      simp [h, List.range_succ]

theorem chunkSectionsGo_indices (fuel : Nat) (cid title : Text) :
    ∀ (sections : List MdSection) (idx : Nat) (acc : List Chunk)
      (out : List Chunk),
      acc.map Chunk.chunkIndex = List.range idx →
      chunkSectionsGo fuel cid title sections idx acc = some out →
      out.map Chunk.chunkIndex = List.range out.length := by
  intro sections
  induction sections with
  | nil =>
    intro idx acc out h hout
    simp only [chunkSectionsGo] at hout
    have hlen : acc.length = idx := by
      have := congrArg List.length h
      simpa using this
    cases hout
    rw [h, hlen]
  | cons s rest ih =>
    intro idx acc out h hout
    simp only [chunkSectionsGo] at hout
    by_cases hb : charStrip s.text = []
    · rw [if_pos hb] at hout
      exact ih idx acc out h hout
    · rw [if_neg hb] at hout
      cases hsp : splitText fuel s.text chunkSize chunkOverlap with
      | none => rw [hsp] at hout; cases hout
      | some pieces =>
        rw [hsp] at hout
        exact ih _ _ out (chunkPieces_indices cid title s.heading pieces idx acc h) hout

/-- C10: whenever `_chunk_content` returns, the emitted chunks carry
`chunk_index` values exactly `0, 1, ..., n-1` in emission order — global
across sections, unaffected by skipped blank sections and dropped short
pieces. -/
theorem chunk_ordinals_consecutive (fuel : Nat) (content title cid : Text)
    (out : List Chunk) (h : chunkContent fuel content title cid = some out) :
    out.map Chunk.chunkIndex = List.range out.length :=
  chunkSectionsGo_indices fuel cid title (splitBySections (cleanContent content))
    0 [] out (by simp) h

/-- Witness for C10 at a concrete document with one kept chunk. -/
theorem chunk_ordinals_witness :
    chunkContent 1 c60 tTitle chId = some [chunk60] ∧
    [chunk60].map Chunk.chunkIndex = List.range ([chunk60].length) :=
  ⟨by decide, chunk_ordinals_consecutive 1 c60 tTitle chId [chunk60] (by decide)⟩

/-- C3: the claim says a second `index_document` call with identical id,
content and title (and `force = false`) returns `skipped` with no provider
calls.  In fact the second pass runs in full: the skip check compares the
digest of the raw content with the digest of the concatenated stored chunk
texts, but the stored chunk text is the section body with a trailing newline
added by the section splitter, so the digests differ and the pass re-chunks
and re-embeds (status `success`, one new embedding batch) instead of
skipping. -/
theorem index_unchanged_rerun_not_skipped :
    indexTwiceOutcome = some (IndexStatus.success, IndexStatus.success, 1) := by
  decide

/-- C7: if the batched embedding step answers a number of embeddings
different from the number of chunks, the pass returns status `error`, the
chapter's chunk rows stay deleted-and-empty, and the only vector-store call
of the pass is the initial delete — no upsert is issued, so zero new chunks
are committed. -/
theorem embedding_mismatch_error_nothing_committed
    (fuel : Nat) (embed : List Text → List Emb) (cid content title : Text)
    (force : Bool) (st : IndexState) (chunks : List Chunk)
    (hskip : ¬(force = false ∧ st.chunkRows ≠ [] ∧
        mdHash ((st.chunkRows.map StoredChunk.content).flatten) = mdHash content))
    (hch : chunkContent fuel content title cid = some chunks)
    (hne : chunks ≠ [])
    (hmis : (genEmbBatches embed (chunks.map Chunk.content)).1.length ≠ chunks.length) :
    indexChapter fuel embed cid content title force st
      = some (⟨IndexStatus.error, 0⟩,
          ⟨[], st.vecOps ++ [VecOp.deleteByChapter cid]⟩,
          (genEmbBatches embed (chunks.map Chunk.content)).2) := by
  unfold indexChapter
  rw [if_neg hskip, hch]
  simp only [if_neg hne, if_pos hmis]

/-- Witness for C7: a provider returning no embeddings for the one-chunk
fixture document forces the mismatch. -/
theorem embedding_mismatch_witness :
    chunkContent 1 c60 tTitle chId = some [chunk60] ∧
    (genEmbBatches embedNone ([chunk60].map Chunk.content)).1.length ≠ [chunk60].length ∧
    indexChapter 1 embedNone chId c60 tTitle true ⟨[], []⟩
      = some (⟨IndexStatus.error, 0⟩,
          ⟨[], [] ++ [VecOp.deleteByChapter chId]⟩,
          (genEmbBatches embedNone ([chunk60].map Chunk.content)).2) :=
  ⟨by decide, by decide,
   embedding_mismatch_error_nothing_committed 1 embedNone chId c60 tTitle true
     ⟨[], []⟩ [chunk60] (by decide) (by decide) (by decide) (by decide)⟩

/-- C8: while the underlying store is unreachable — either it was down at
startup (`client = none`) or every call raises at call time — `search`
returns `[]`, `upsert_vectors` returns `false` and `delete_by_filter`
returns `false`; being total Lean functions, none of them can raise. -/
theorem gateway_unreachable_degrades (s : QdrantStore)
    (h : s.client = none ∨ ∃ b, s.client = some b ∧ backendDown b) :
    (∀ qv limit filt thr, storeSearch s qv limit filt thr = []) ∧
    (∀ v p i, storeUpsert s v p i = false) ∧
    (∀ f, storeDelete s f = false) := by
  rcases h with h | ⟨b, hb, hd⟩
  · exact ⟨fun qv limit filt thr => by simp [storeSearch, h],
      fun v p i => by simp [storeUpsert, h],
      fun f => by simp [storeDelete, h]⟩
  · exact ⟨fun qv limit filt thr => by simp [storeSearch, hb, hd.1],
      fun v p i => by simp [storeUpsert, hb, hd.2.1],
      fun f => by simp [storeDelete, hb, hd.2.2]⟩

/-- Witness for C8 at a gateway whose store was unreachable at startup. -/
theorem gateway_unreachable_witness :
    storeSearch downStore [] 5 none none = [] ∧
    storeUpsert downStore [] [] [] = false ∧
    storeDelete downStore [] = false :=
  ⟨(gateway_unreachable_degrades downStore (Or.inl rfl)).1 [] 5 none none,
   (gateway_unreachable_degrades downStore (Or.inl rfl)).2.1 [] [] [],
   (gateway_unreachable_degrades downStore (Or.inl rfl)).2.2 []⟩

theorem extractContextGo_chunks :
    ∀ (rs : List Payload) (cc ss : List Text),
      (extractContextGo rs cc ss).1
        = cc ++ (rs.filter (fun p => decide (p.content ≠ []))).map Payload.content := by
  intro rs
  induction rs with
  | nil => intro cc ss; simp [extractContextGo]
  | cons p rest ih =>
    intro cc ss
    by_cases hp : p.content ≠ []
    · simp only [extractContextGo, if_pos hp]
      rw [ih]
      simp [List.filter_cons, hp]
    · simp only [extractContextGo, if_neg hp]
      rw [ih]
      simp [List.filter_cons, hp]

/-- C6 counterexample: a retrieved chunk (`abc`) whose text is contained in
the selected text is still placed in the context block — the claim's
exclusion does not happen; `_extract_context` keeps every non-empty chunk. -/
theorem contained_chunk_still_in_context :
    containsSub selText resAbc.content = true ∧
    buildContextChunks (txt ("selection")) (some selText) [resAbc]
      = [txt ("Selected text: ") ++ selText, resAbc.content] := by
  constructor
  · decide
  · decide

/-- C6 amended: in selection mode the context block is the prefixed selected
text followed by the text of every retrieved chunk with non-empty content —
no chunk is excluded for being contained in the selected text. -/
theorem context_keeps_all_nonempty_chunks (sel : Text) (results : List Payload)
    (hsel : sel ≠ []) :
    buildContextChunks (txt ("selection")) (some sel) results
      = (txt ("Selected text: ") ++ sel)
          :: (results.filter (fun p => decide (p.content ≠ []))).map Payload.content := by
  simp only [buildContextChunks, extractContext, extractContextGo_chunks]
  rw [if_pos ⟨hsel, trivial⟩]
  simp

/-- Witness for the amended C6 statement. -/
theorem context_keeps_chunks_witness :
    selText ≠ [] ∧
    buildContextChunks (txt ("selection")) (some selText) [resAbc]
      = (txt ("Selected text: ") ++ selText)
          :: ([resAbc].filter (fun p => decide (p.content ≠ []))).map Payload.content :=
  ⟨by decide, context_keeps_all_nonempty_chunks selText [resAbc] (by decide)⟩

/-- C5 counterexample: with Gemini and OpenAI both configured, a raising
Gemini call makes `_translate_with_llm` return the degraded placeholder
translation immediately; OpenAI — which would have answered — is never
called, contradicting the claim that a degraded response is produced only
after all configured backends have been tried. -/
theorem failover_missing_counterexample :
    translateWithLlm keysGemOpenai gemFail opaEcho opaEcho (txt ("Hello"))
        = (placeholderTranslation (txt ("Hello")), [ProviderTag.gemini]) ∧
    opaEcho (txt ("Hello")) = Except.ok (txt ("ok Hello")) := by
  constructor
  · rfl
  · rfl

/-- C5 amended: each caller invokes only the single highest-priority
configured backend; if that call raises (or, for the answer generator,
answers empty), the caller immediately produces its degraded response
without trying any other configured backend. -/
theorem single_attempt_then_degraded :
    (∀ (keys : ApiKeys) (gem opa anth : Text → Except Unit Text) (content : Text),
        keys.gemini = true → gem content = Except.error () →
        translateWithLlm keys gem opa anth content
          = (placeholderTranslation content, [ProviderTag.gemini])) ∧
    (∀ (keys : ApiKeys) (clients : ProviderTag → Text → Except Unit Text) (q : Text),
        getCompletionClient keys = some ProviderTag.gemini →
        clients ProviderTag.gemini q = Except.error () →
        generateAnswer keys clients q = (degradedAnswer, [ProviderTag.gemini])) := by
  constructor
  · intro keys gem opa anth content hk hg
    simp [translateWithLlm, hk, hg]
  · intro keys clients q hsel hc
    simp [generateAnswer, hsel, hc]

/-- Witness for the amended C5 statement. -/
theorem single_attempt_witness :
    keysGemOpenai.gemini = true ∧
    gemFail (txt ("Hello")) = Except.error () ∧
    translateWithLlm keysGemOpenai gemFail opaEcho opaEcho (txt ("Hello"))
      = (placeholderTranslation (txt ("Hello")), [ProviderTag.gemini]) :=
  ⟨rfl, rfl,
   single_attempt_then_degraded.1 keysGemOpenai gemFail opaEcho opaEcho
     (txt ("Hello")) rfl rfl⟩

theorem startsWithT_append_self : ∀ (a b : Text), startsWithT (a ++ b) a = true := by
  intro a
  induction a with
  | nil => intro b; simp [startsWithT]
  | cons c cs ih => intro b; simp [startsWithT, ih]

theorem containsSub_of_startsWithT {h n : Text} (hs : startsWithT h n = true) :
    containsSub h n = true := by
  cases h with
  | nil => simpa [containsSub] using hs
  | cons c rest => simp [containsSub, hs]

theorem replaceAllGo_contains (needle repl : Text) (hne : needle ≠ []) :
    ∀ (fuel : Nat) (t : Text), t.length ≤ fuel → containsSub t needle = true →
      containsSub (replaceAllGo needle repl fuel t) repl = true := by
  intro fuel
  induction fuel with
  | zero =>
    intro t hlen hc
    have ht : t = [] := List.eq_nil_of_length_eq_zero (Nat.le_zero.mp hlen)
    subst ht
    cases needle with
    | nil => exact absurd rfl hne
    | cons d ds => simp [containsSub, startsWithT] at hc
  | succ n ih =>
    intro t hlen hc
    cases t with
    | nil =>
      cases needle with
      | nil => exact absurd rfl hne
      | cons d ds => simp [containsSub, startsWithT] at hc
    | cons c rest =>
      by_cases hm : needle ≠ [] ∧ startsWithT (c :: rest) needle = true
      · simp only [replaceAllGo, if_pos hm]
        exact containsSub_of_startsWithT (startsWithT_append_self repl _)
      · simp only [replaceAllGo, if_neg hm]
        have hsw : startsWithT (c :: rest) needle = false := by
          rcases Bool.eq_false_or_eq_true (startsWithT (c :: rest) needle) with h | h
          · exact absurd ⟨hne, h⟩ hm
          · exact h
        have hrest : containsSub rest needle = true := by
          simp only [containsSub, hsw, Bool.false_or] at hc
          exact hc
        have := ih rest (by simpa using Nat.le_of_succ_le_succ (by simpa using hlen)) hrest
        simp [containsSub, this]

theorem replaceAll_contains (needle repl : Text) (hne : needle ≠ []) (t : Text)
    (h : containsSub t needle = true) :
    containsSub (replaceAll needle repl t) repl = true :=
  replaceAllGo_contains needle repl hne t.length t (Nat.le_refl _) h

/-- C4 counterexample: the whole input is one fenced code block containing
the technical term `Python`.  Run through `translate_to_urdu` with
`preserve_formatting = true` (and the key-less placeholder provider that the
code itself falls back to), the final output does not contain the code block
verbatim: the technical-term pass rewrote `Python` inside the restored
fence. -/
theorem fence_altered_counterexample :
    (preserveCodeBlocks c4content).2 = [(cbPlaceholder 0, c4content)] ∧
    (translateToUrdu placeholderTranslation 0 c4content none true []).output
      = txt ("[اردو] ```\nPython (پائتھون)\n```") ∧
    containsSub (translateToUrdu placeholderTranslation 0 c4content none true []).output
      c4content = false := by
  refine ⟨by decide, by decide, by decide⟩

/-- C4 amended: code blocks are placeholder-protected before the provider
call and the restoration step does reinsert a block verbatim wherever its
placeholder survives in the provider output; but the technical-term
transliteration then runs over the whole restored text, so terms inside a
restored fence are rewritten (here `Python` becomes `Python (پائتھون)`),
and only fences free of technical terms appear verbatim in the final
output. -/
theorem restore_verbatim_transliteration_alters :
    (∀ (t block : Text), containsSub t (cbPlaceholder 0) = true →
        containsSub (restoreCodeBlocks t [(cbPlaceholder 0, block)]) block = true) ∧
    applyTechnicalTerms (txt ("[اردو] ") ++ c4content)
      = txt ("[اردو] ") ++ txt ("```\nPython (پائتھون)\n```") := by
  constructor
  · intro t block h
    have hr : restoreCodeBlocks t [(cbPlaceholder 0, block)]
        = replaceAll (cbPlaceholder 0) block t := rfl
    rw [hr]
    exact replaceAll_contains _ _ (by decide) t h
  · decide

/-- Witness for the amended C4 statement (restoration inserts the block
verbatim at a concrete provider output containing the placeholder). -/
theorem restore_verbatim_witness :
    containsSub (txt ("x<<<CODE_BLOCK_0>>>y")) (cbPlaceholder 0) = true ∧
    containsSub (restoreCodeBlocks (txt ("x<<<CODE_BLOCK_0>>>y"))
        [(cbPlaceholder 0, c4content)]) c4content = true :=
  ⟨by decide,
   restore_verbatim_transliteration_alters.1 (txt ("x<<<CODE_BLOCK_0>>>y"))
     c4content (by decide)⟩

theorem findCacheEntry_cacheTranslation (cache : List CacheEntry)
    (cid hash urdu : Text) (now : Nat) :
    findCacheEntry (cacheTranslation cache cid hash urdu now) cid hash
      = some ⟨cid, hash, urdu, now + cacheDurationDays⟩ := by
  unfold findCacheEntry cacheTranslation
  rw [List.find?_append]
  have h1 : List.find?
      (fun e => decide (e.chapterId = cid) && decide (e.contentHash = hash))
      (cache.filter
        (fun e => !(decide (e.chapterId = cid) && decide (e.contentHash = hash))))
      = none := by
    rw [List.find?_eq_none]
    intro x hx
    rw [List.mem_filter] at hx
    simp only [Bool.not_eq_true'] at hx
    simp [hx.2]
  rw [h1]
  simp [List.find?]

theorem translate_stores_entry (provider : Text → Text) (now : Nat)
    (content cid : Text) (pf : Bool) (cache : List CacheEntry) :
    ∃ e, findCacheEntry (translateToUrdu provider now content (some cid) pf cache).cache
          cid (shaHash content) = some e
      ∧ e.urduContent = (translateToUrdu provider now content (some cid) pf cache).output := by
  cases hf : findCacheEntry cache cid (shaHash content) with
  | some e0 =>
    by_cases hex : isExpired e0 now = true
    · have hg : getCachedTranslation cache cid (shaHash content) now
          = (none, cache.erase e0) := by
        unfold getCachedTranslation
        rw [hf]
        simp [hex]
      simp only [translateToUrdu, hg, translateCore]
      generalize translPipeline provider content pf = X
      exact ⟨⟨cid, shaHash content, X, now + cacheDurationDays⟩,
        findCacheEntry_cacheTranslation (cache.erase e0) cid (shaHash content) X now,
        rfl⟩
    · have hg : getCachedTranslation cache cid (shaHash content) now
          = (some e0.urduContent, cache) := by
        unfold getCachedTranslation
        rw [hf]
        simp [hex]
      simp only [translateToUrdu, hg]
      exact ⟨e0, hf, rfl⟩
  | none =>
    have hg : getCachedTranslation cache cid (shaHash content) now = (none, cache) := by
      unfold getCachedTranslation
      rw [hf]
    simp only [translateToUrdu, hg, translateCore]
    generalize translPipeline provider content pf = X
    exact ⟨⟨cid, shaHash content, X, now + cacheDurationDays⟩,
      findCacheEntry_cacheTranslation cache cid (shaHash content) X now,
      rfl⟩

/-- C9: after any `translate_to_urdu(content, chapter_id, pf)` call, a second
call with identical content and chapter id made while the stored entry is not
yet expired answers from the cache: `cache_hit = true`, output byte-identical
to the first call's output, zero provider invocations, and the cache state
unchanged. -/
theorem translation_cache_roundtrip (provider : Text → Text) (now1 now2 : Nat)
    (content cid : Text) (pf : Bool) (cache : List CacheEntry) (e : CacheEntry)
    (he : findCacheEntry (translateToUrdu provider now1 content (some cid) pf cache).cache
        cid (shaHash content) = some e)
    (hexp : isExpired e now2 = false) :
    translateToUrdu provider now2 content (some cid) pf
        (translateToUrdu provider now1 content (some cid) pf cache).cache
      = ⟨(translateToUrdu provider now1 content (some cid) pf cache).output, true,
         (translateToUrdu provider now1 content (some cid) pf cache).cache, 0⟩ := by
  obtain ⟨e', he', hu⟩ := translate_stores_entry provider now1 content cid pf cache
  have hee : e = e' := by
    rw [he'] at he
    exact (Option.some.inj he).symm
  subst hee
  generalize hT : translateToUrdu provider now1 content (some cid) pf cache = T1 at he' hu ⊢
  have hg : getCachedTranslation T1.cache cid (shaHash content) now2
      = (some e.urduContent, T1.cache) := by
    unfold getCachedTranslation
    rw [he']
    simp [hexp]
  simp only [translateToUrdu, hg]
  rw [hu]

/-- Witness for C9: translating `Hi` for chapter `c` at time 0, then again at
time 5 (before the 30-day expiry). -/
theorem translation_cache_roundtrip_witness :
    findCacheEntry (translateToUrdu idProvider 0 (txt ("Hi")) (some (txt ("c"))) false []).cache
        (txt ("c")) (shaHash (txt ("Hi"))) = some cEntry ∧
    isExpired cEntry 5 = false ∧
    translateToUrdu idProvider 5 (txt ("Hi")) (some (txt ("c"))) false
        (translateToUrdu idProvider 0 (txt ("Hi")) (some (txt ("c"))) false []).cache
      = ⟨(translateToUrdu idProvider 0 (txt ("Hi")) (some (txt ("c"))) false []).output, true,
         (translateToUrdu idProvider 0 (txt ("Hi")) (some (txt ("c"))) false []).cache, 0⟩ :=
  ⟨by decide, by decide,
   translation_cache_roundtrip idProvider 0 5 (txt ("Hi")) (txt ("c")) false [] cEntry
     (by decide) (by decide)⟩

end Textbook
